import Mathlib

/-!
Verification of the Urban-Vitals pipeline and API against its specification.

Each definition below is a shallow embedding of a function of the repository,
translated from the Python source file named in its doc comment.  Python
numbers (int and float) are modelled as exact rationals, JSON scalars as the
inductive type PyVal, Python dicts as association lists with distinct keys in
insertion order, and network calls as explicit response arguments (oracles).
-/

namespace UrbanVitals

open scoped List

/-- A scalar JSON value as produced by json.load.  A Python bool is a subtype
of int, so isinstance checks for (int, float) accept it. -/
inductive PyVal where
| num (q : ℚ)
| boolean (b : Bool)
| str (s : String)
| null
deriving DecidableEq, Repr

/-- Python isinstance(v, (int, float)), which is also true for bools. -/
def PyVal.isNumeric : PyVal → Bool
| num _ => true
| boolean _ => true
| _ => false

/-- Numeric value of a PyVal; Python treats True as 1 and False as 0. -/
def PyVal.numVal : PyVal → ℚ
| num q => q
| boolean b => if b then 1 else 0
| _ => 0

/-- A Python dict of homeowner metrics: association list, distinct keys,
insertion order. -/
abbrev Homeowners := List (String × PyVal)

/-- gs_converter.py lines 21-26: the fixed whitelist of score keys. -/
def score_keys : List String :=
["air_quality", "greenery_coverage", "water_quality", "cleanliness",
 "power_grid_reliability", "road_quality", "public_safety", "walkability",
 "public_transit_access", "renewable_energy_adoption", "recycling_rate",
 "local_business_sustainability_practices", "circular_economy_indicators"]

/-- gs_converter.py line 33: the list comprehension
[homeowners[key] for key in score_keys if key in homeowners and
 isinstance(homeowners[key], (int, float))]. -/
def codeScores (h : Homeowners) : List ℚ :=
score_keys.filterMap fun k =>
  match List.lookup k h with
  | some v => if v.isNumeric then some v.numVal else none
  | none => none

/-- Round-half-to-even on an exact rational, the rounding used by Python's
built-in round. -/
def roundHalfEven (q : ℚ) : ℤ :=
let f := ⌊q⌋
let r := q - f
if r < 1/2 then f
else if 1/2 < r then f + 1
else if Even f then f else f + 1

/-- Python round(x, 2) modelled on exact rationals. -/
def pyRound2 (q : ℚ) : ℚ := (roundHalfEven (q * 100) : ℚ) / 100

/-- gs_converter.py lines 33-42: per-entity composite score.
green_score = sum(scores) / len(scores) if scores else 0.0, then
round(green_score, 2). -/
def green_score (h : Homeowners) : ℚ :=
let scores := codeScores h
pyRound2 (if scores = [] then 0 else scores.sum / scores.length)

/-- One neighborhood record as read by gs_converter.py: the fields it
touches via data.get.  greenScore is none before aggregation; the opaque
fields id, name, coordinates, description are carried as optional PyVals. -/
structure Entity where
  id : Option PyVal
  name : Option PyVal
  coordinates : Option PyVal
  description : Option PyVal
  greenScore : Option ℚ
  homeowners : Homeowners
deriving DecidableEq, Repr

/-- gs_converter.py lines 31-44: per-entity body of the loop of
calculate_and_finalize_data: copy id, name, coordinates, description and
homeowners, and set green_score to the computed rounded mean. -/
def finalizeEntity (e : Entity) : Entity :=
{ id := e.id, name := e.name, coordinates := e.coordinates,
  description := e.description,
  greenScore := some (green_score e.homeowners),
  homeowners := e.homeowners }

/-- gs_converter.py calculate_and_finalize_data, pure core: the report is a
dict keyed by neighborhood name; each entry is finalized in order. -/
def calculate_and_finalize_data (report : List (String × Entity)) :
    List (String × Entity) :=
report.map fun p => (p.1, finalizeEntity p.2)

/-- data_exp_2.py lines 38-44: AQI reading to rating. -/
def aqi_to_rating (aqi : Option ℚ) : ℤ :=
match aqi with
| none => 5
| some a =>
  if a ≤ 25 then 10
  else if a ≤ 50 then 8
  else if a ≤ 100 then 6
  else if a ≤ 150 then 4
  else 2

/-- Python str.endswith, as a computation on the character lists. -/
def strEndsWith (s pat : String) : Bool := pat.data.isSuffixOf s.data

/-- Spec side, for comparison with the code (spec section 4.5): a key is an
explanatory key when it ends in one of the explanation suffixes used in the
data (_exp, _reason, _explanation). -/
def hasExplanationSuffix (k : String) : Bool :=
strEndsWith k "_exp" || strEndsWith k "_reason" || strEndsWith k "_explanation"

/-- Spec side: the values the claim says enter the average, namely every
present numeric value whose key does not end in an explanation suffix. -/
def suffixRuleScores (h : Homeowners) : List ℚ :=
h.filterMap fun p =>
  if p.2.isNumeric && !hasExplanationSuffix p.1 then some p.2.numVal else none

/-- Spec side: the composite the claim describes: round-2 mean of the
suffix-rule values, 0.0 when none are present. -/
def suffixRuleGreenScore (h : Homeowners) : ℚ :=
let scores := suffixRuleScores h
pyRound2 (if scores = [] then 0 else scores.sum / scores.length)

/-- Spec-style reformulation of the code's selection: the present numeric
values whose key belongs to the fixed whitelist score_keys, extracted by
filtering the dict itself rather than by iterating the whitelist. -/
def presentWhitelistScores (h : Homeowners) : List ℚ :=
h.filterMap fun p =>
  if p.1 ∈ score_keys ∧ p.2.isNumeric then some p.2.numVal else none

/-- The per-key extraction performed by the comprehension of
gs_converter.py line 33, as a function of the key. -/
def extractScore (h : Homeowners) (k : String) : Option ℚ :=
match List.lookup k h with
| some v => if v.isNumeric then some v.numVal else none
| none => none

lemma codeScores_eq_filterMap (h : Homeowners) :
    codeScores h = score_keys.filterMap (extractScore h) := rfl

lemma filterMap_cons_toList (f : α → Option β) (x : α) (l : List α) :
    (x :: l).filterMap f = (f x).toList ++ l.filterMap f := by
  cases hfx : f x <;> simp [List.filterMap_cons, hfx]

lemma filterMap_isolate [DecidableEq α] (SK : List α) (hSK : SK.Nodup)
    (k : α) (a : Option β) (f : α → Option β) (hfk : f k = none) :
    (SK.filterMap fun x => if x = k then a else f x) ~
      (if k ∈ SK then a.toList else []) ++ SK.filterMap f := by
  induction SK with
  | nil => simp
  | cons s SK2 ih =>
    obtain ⟨hs2, hnd2⟩ := List.nodup_cons.mp hSK
    by_cases hsk : s = k
    · subst hsk
      have hg2 : (SK2.filterMap fun x => if x = s then a else f x) =
          SK2.filterMap f := by
        refine List.filterMap_congr fun x hx => ?_
        have hxs : x ≠ s := fun h => hs2 (h ▸ hx)
        simp [hxs]
      rw [filterMap_cons_toList, filterMap_cons_toList, hg2, hfk]
      simp
    · have hks : ¬ (k = s) := fun h => hsk h.symm
      rw [filterMap_cons_toList, filterMap_cons_toList, if_neg hsk]
      have hmem : (if k ∈ s :: SK2 then a.toList else []) =
          (if k ∈ SK2 then a.toList else []) := by
        by_cases hk2 : k ∈ SK2
        · simp [hk2, List.mem_cons]
        · have hk12 : k ∉ s :: SK2 := by simp [List.mem_cons, hks, hk2]
          simp [hk12, hk2]
      rw [hmem]
      exact ((ih hnd2).append_left _).trans (List.perm_append_comm_assoc _ _ _)

lemma score_keys_nodup : score_keys.Nodup := by decide

lemma extract_perm (h : Homeowners) (hnd : (h.map Prod.fst).Nodup) :
    score_keys.filterMap (extractScore h) ~ presentWhitelistScores h := by
  induction h with
  | nil =>
    have : ∀ k, extractScore ([] : Homeowners) k = none := fun k => rfl
    simp [presentWhitelistScores, List.filterMap_congr fun x _ => this x]
  | cons p t ih =>
    obtain ⟨k0, v0⟩ := p
    simp only [List.map_cons, List.nodup_cons] at hnd
    obtain ⟨hk0, hndt⟩ := hnd
    have hpoint : ∀ x, extractScore ((k0, v0) :: t) x =
        if x = k0 then (if v0.isNumeric then some v0.numVal else none)
        else extractScore t x := by
      intro x
      by_cases hx : x = k0
      · subst hx
        simp [extractScore, List.lookup_cons]
      · have hne : (x == k0) = false := beq_eq_false_iff_ne.mpr hx
        simp [extractScore, List.lookup_cons, hne, hx]
    have hnone : extractScore t k0 = none := by
      have hlk : List.lookup k0 t = none := by
        rw [List.lookup_eq_none_iff]
        intro q hq
        simp only [bne_iff_ne, ne_eq]
        intro hEq
        exact hk0 (List.mem_map.mpr ⟨q, hq, hEq.symm⟩)
      simp [extractScore, hlk]
    calc score_keys.filterMap (extractScore ((k0, v0) :: t))
        = score_keys.filterMap fun x =>
            if x = k0 then (if v0.isNumeric then some v0.numVal else none)
            else extractScore t x := List.filterMap_congr fun x _ => hpoint x
      _ ~ (if k0 ∈ score_keys then
            (if v0.isNumeric then some v0.numVal else none).toList else []) ++
            score_keys.filterMap (extractScore t) :=
          filterMap_isolate score_keys score_keys_nodup k0 _ _ hnone
      _ ~ (if k0 ∈ score_keys then
            (if v0.isNumeric then some v0.numVal else none).toList else []) ++
            presentWhitelistScores t := (ih hndt).append_left _
      _ = presentWhitelistScores ((k0, v0) :: t) := by
          simp only [presentWhitelistScores, filterMap_cons_toList]
          congr 1
          by_cases h1 : k0 ∈ score_keys <;> by_cases h2 : v0.isNumeric = true <;>
            simp [h1, h2]

lemma pyRound2_zero : pyRound2 0 = 0 := by
  norm_num [pyRound2, roundHalfEven]

lemma pyRound2_int (n : ℤ) : pyRound2 (n : ℚ) = n := by
  have hcast : ((n : ℚ) * 100) = ((n * 100 : ℤ) : ℚ) := by push_cast; ring
  simp only [pyRound2, roundHalfEven, hcast, Int.floor_intCast]
  norm_num

/-- C4: the AQI-to-rating map of data_exp_2.py returns 10 for readings up to
25, 8 up to 50, 6 up to 100 (inclusive boundary at exactly 100), 4 up to 150,
2 above, and 5 for a null reading. -/
theorem aqi_rating_boundaries :
    aqi_to_rating none = 5 ∧ aqi_to_rating (some 100) = 6 ∧
    ∀ a : ℚ, (a ≤ 25 → aqi_to_rating (some a) = 10) ∧
      (25 < a → a ≤ 50 → aqi_to_rating (some a) = 8) ∧
      (50 < a → a ≤ 100 → aqi_to_rating (some a) = 6) ∧
      (100 < a → a ≤ 150 → aqi_to_rating (some a) = 4) ∧
      (150 < a → aqi_to_rating (some a) = 2) := by
  refine ⟨rfl, by norm_num [aqi_to_rating], fun a => ⟨?_, ?_, ?_, ?_, ?_⟩⟩ <;>
    intros <;>
    simp only [aqi_to_rating] <;>
    split_ifs <;> first | rfl | linarith

/-- Witness for C4: a concrete reading in the second bucket. -/
theorem aqi_rating_boundaries_witness : aqi_to_rating (some 30) = 8 :=
  (aqi_rating_boundaries.2.2 30).2.1 (by norm_num) (by norm_num)

/-- C1 counterexample: the code selects scores by the fixed whitelist, not by
the explanation-suffix rule.  On a homeowners dict holding a numeric key
outside the whitelist, the computed composite (4.0) differs from the
suffix-rule mean the claim describes (7.0). -/
theorem green_score_suffix_rule_counterexample :
    green_score [("air_quality", PyVal.num 4), ("solar_index", PyVal.num 10)] ≠
      suffixRuleGreenScore
        [("air_quality", PyVal.num 4), ("solar_index", PyVal.num 10)] := by
  have hc : codeScores
      [("air_quality", PyVal.num 4), ("solar_index", PyVal.num 10)] = [4] := by
    decide
  have hs : suffixRuleScores
      [("air_quality", PyVal.num 4), ("solar_index", PyVal.num 10)] = [4, 10] := by
    decide
  have h4 := pyRound2_int 4
  have h7 := pyRound2_int 7
  norm_num at h4 h7
  have h1 : green_score
      [("air_quality", PyVal.num 4), ("solar_index", PyVal.num 10)] = 4 := by
    simp only [green_score, hc]
    norm_num [h4]
  have h2 : suffixRuleGreenScore
      [("air_quality", PyVal.num 4), ("solar_index", PyVal.num 10)] = 7 := by
    have hne : ([4, 10] : List ℚ) ≠ [] := by simp
    simp only [suffixRuleGreenScore, hs, if_neg hne]
    norm_num [h7]
  rw [h1, h2]
  norm_num

/-- C1 (amended): for a homeowners dict with distinct keys, the computed
composite green_score equals the round-2 mean of exactly the present numeric
values whose key belongs to the fixed thirteen-key whitelist (selection is by
the whitelist, not by the explanation-suffix convention), and it is exactly 0
when no such value is present. -/
theorem green_score_whitelist_mean (h : Homeowners)
    (hnd : (h.map Prod.fst).Nodup) :
    green_score h =
      pyRound2 (if presentWhitelistScores h = [] then 0
        else (presentWhitelistScores h).sum / (presentWhitelistScores h).length) ∧
    (presentWhitelistScores h = [] → green_score h = 0) := by
  have hperm : codeScores h ~ presentWhitelistScores h := by
    rw [codeScores_eq_filterMap]; exact extract_perm h hnd
  have hsum := hperm.sum_eq
  have hlen := hperm.length_eq
  have hnil : codeScores h = [] ↔ presentWhitelistScores h = [] := by
    rw [← List.length_eq_zero, ← List.length_eq_zero, hlen]
  constructor
  · rw [green_score]
    by_cases hc : presentWhitelistScores h = []
    · simp [hnil.mpr hc, hc]
    · simp only [hnil, hc, if_neg, hsum, hlen]
  · intro hc
    rw [green_score]
    simp [hnil.mpr hc, pyRound2_zero]

/-- Witness for C1 (amended): a one-key dict with distinct keys. -/
theorem green_score_whitelist_mean_witness :
    green_score [("air_quality", PyVal.num 7)] =
      pyRound2 (if presentWhitelistScores [("air_quality", PyVal.num 7)] = [] then 0
        else (presentWhitelistScores [("air_quality", PyVal.num 7)]).sum /
          (presentWhitelistScores [("air_quality", PyVal.num 7)]).length) ∧
    (presentWhitelistScores [("air_quality", PyVal.num 7)] = [] →
      green_score [("air_quality", PyVal.num 7)] = 0) :=
  green_score_whitelist_mean [("air_quality", PyVal.num 7)] (by simp)

/-- C6: running the aggregation step of gs_converter.py on its own output
changes nothing: every homeowner key and value is carried over verbatim and
the recomputed green_score coincides with the one already present. -/
theorem finalize_idempotent :
    (∀ report : List (String × Entity),
      calculate_and_finalize_data (calculate_and_finalize_data report) =
        calculate_and_finalize_data report) ∧
    ∀ e : Entity, (finalizeEntity e).homeowners = e.homeowners ∧
      finalizeEntity (finalizeEntity e) = finalizeEntity e := by
  refine ⟨fun report => ?_, fun e => ⟨rfl, rfl⟩⟩
  induction report with
  | nil => rfl
  | cons p t ih =>
    simp only [calculate_and_finalize_data, List.map_cons, List.map_map] at ih ⊢
    exact congrArg _ ih

/-- Drop leading whitespace characters. -/
def dropLeadWS : List Char → List Char
| [] => []
| c :: t => if c.isWhitespace then dropLeadWS t else c :: t

/-- Python str.strip (ASCII whitespace): drop leading and trailing
whitespace. -/
def pyStrip (s : String) : String :=
String.mk (dropLeadWS ((dropLeadWS s.data.reverse).reverse))

/-! ## Narrative rewriter, data_exp.py -/

/-- Python dict assignment d[k] = v: replace the value of an existing key in
place, append a fresh key at the end. -/
def setKey : Homeowners → String → PyVal → Homeowners
| [], k, v => [(k, v)]
| (k0, v0) :: t, k, v =>
  if k0 = k then (k, v) :: t else (k0, v0) :: setKey t k v

/-- data_exp.py lines 19-35, rewrite_explanation_with_cerebras: the retry
loop.  The API call of attempt number a (0-based) is modelled by the oracle:
some s when the call returns content s, none when it raises.  The fuel is
max_retries - a.  Returns the result (content.strip() on success, None after
the final failed attempt), the number of calls made, and the list of
time.sleep backoff delays (2 ** attempt seconds) taken between failed
attempts. -/
def attemptLoop (oracle : ℕ → Option String) (attempt : ℕ) :
    ℕ → Option String × ℕ × List ℕ
| 0 => (none, 0, [])
| fuel + 1 =>
  match oracle attempt with
  | some s => (some (pyStrip s), 1, [])
  | none =>
    if fuel = 0 then (none, 1, [])
    else
      let r := attemptLoop oracle (attempt + 1) fuel
      (r.1, r.2.1 + 1, 2 ^ attempt :: r.2.2)

/-- data_exp.py line 19: max_retries = 3, loop from attempt 0. -/
def rewrite_explanation_with_cerebras (oracle : ℕ → Option String) :
    Option String × ℕ × List ℕ :=
attemptLoop oracle 0 3

/-- data_exp.py lines 125-129: if new_text: overwrite the explanation key;
otherwise (None, or an empty string, both falsy) keep the original text. -/
def applyRewrite (h : Homeowners) (key : String) (res : Option String) :
    Homeowners :=
match res with
| some s => if s = "" then h else setKey h key (PyVal.str s)
| none => h

lemma attemptLoop_calls_le (oracle : ℕ → Option String) :
    ∀ fuel a, (attemptLoop oracle a fuel).2.1 ≤ fuel := by
  intro fuel
  induction fuel with
  | zero => intro a; simp [attemptLoop]
  | succ f ih =>
    intro a
    simp only [attemptLoop]
    cases oracle a with
    | some s => simp
    | none =>
      by_cases hf : f = 0
      · simp [hf]
      · simp [hf]
        exact ih (a + 1)

lemma attemptLoop_delays_le (oracle : ℕ → Option String) :
    ∀ fuel a, (attemptLoop oracle a (fuel + 1)).2.2.length ≤ fuel := by
  intro fuel
  induction fuel with
  | zero =>
    intro a
    simp only [attemptLoop]
    cases oracle a <;> simp
  | succ f ih =>
    intro a
    simp only [attemptLoop]
    cases oracle a with
    | some s => simp
    | none =>
      simp only [Nat.succ_ne_zero, if_neg, List.length_cons]
      exact Nat.succ_le_succ (ih (a + 1))

lemma attemptLoop_delays_shape (oracle : ℕ → Option String) :
    ∀ fuel a, ∃ m, (attemptLoop oracle a fuel).2.2 =
      (List.range m).map fun j => 2 ^ (a + j) := by
  intro fuel
  induction fuel with
  | zero => intro a; exact ⟨0, by simp [attemptLoop]⟩
  | succ f ih =>
    intro a
    simp only [attemptLoop]
    cases oracle a with
    | some s => exact ⟨0, by simp⟩
    | none =>
      by_cases hf : f = 0
      · exact ⟨0, by simp [hf]⟩
      · obtain ⟨m, hm⟩ := ih (a + 1)
        refine ⟨m + 1, ?_⟩
        simp only [if_neg hf, hm, List.range_succ_eq_map, List.map_cons,
          List.map_map]
        congr 1
        apply List.map_congr_left
        intro x hx
        simp only [Function.comp_apply]
        congr 1
        omega

lemma attemptLoop_all_fail (oracle : ℕ → Option String)
    (hfail : ∀ i, oracle i = none) :
    ∀ fuel a, (attemptLoop oracle a fuel).1 = none := by
  intro fuel
  induction fuel with
  | zero => intro a; simp [attemptLoop]
  | succ f ih =>
    intro a
    simp only [attemptLoop, hfail a]
    by_cases hf : f = 0
    · simp [hf]
    · simp [hf]
      exact ih (a + 1)

/-- C7: the rewrite call of data_exp.py is attempted at most 3 times, the
delays taken between failed attempts double exponentially (2 ** attempt
seconds, so at most two waits), when every attempt fails the function
returns None, and in that case the processing loop keeps the original
explanation text in place. -/
theorem rewrite_retry_policy (oracle : ℕ → Option String) (h : Homeowners)
    (key : String) :
    (rewrite_explanation_with_cerebras oracle).2.1 ≤ 3 ∧
    (rewrite_explanation_with_cerebras oracle).2.2.length ≤ 2 ∧
    ((rewrite_explanation_with_cerebras oracle).2.2 =
      (List.range (rewrite_explanation_with_cerebras oracle).2.2.length).map
        fun j => 2 ^ j) ∧
    ((∀ i, oracle i = none) →
      (rewrite_explanation_with_cerebras oracle).1 = none ∧
      applyRewrite h key (rewrite_explanation_with_cerebras oracle).1 = h) := by
  refine ⟨attemptLoop_calls_le oracle 3 0,
    attemptLoop_delays_le oracle 2 0, ?_, fun hfail => ?_⟩
  · obtain ⟨m, hm⟩ := attemptLoop_delays_shape oracle 3 0
    have hm2 : (rewrite_explanation_with_cerebras oracle).2.2 =
        (List.range m).map fun j => 2 ^ j := by
      rw [rewrite_explanation_with_cerebras, hm]
      apply List.map_congr_left
      intro j _
      rw [Nat.zero_add]
    have hlen : (rewrite_explanation_with_cerebras oracle).2.2.length = m := by
      rw [hm2]; simp
    rw [hlen, hm2]
  · have hres : (rewrite_explanation_with_cerebras oracle).1 = none :=
      attemptLoop_all_fail oracle hfail 3 0
    refine ⟨hres, ?_⟩
    rw [hres]
    rfl

/-- Witness for C7: the always-failing oracle on a one-key homeowners dict. -/
theorem rewrite_retry_policy_witness :
    (rewrite_explanation_with_cerebras fun _ => none).1 = none ∧
    applyRewrite [("water_quality_exp", PyVal.str "orig")] "water_quality_exp"
      (rewrite_explanation_with_cerebras fun _ => none).1 =
      [("water_quality_exp", PyVal.str "orig")] :=
  (rewrite_retry_policy (fun _ => none)
    [("water_quality_exp", PyVal.str "orig")] "water_quality_exp").2.2.2
    fun _ => rfl

/-! ## Summary statistics endpoint, backend/main.py -/

/-- The summary payload built by get_stats_summary (main.py lines 226-232). -/
structure StatsData where
  total_neighborhoods : ℕ
  average_green_score : ℚ
  highest_green_score : ℚ
  lowest_green_score : ℚ
  neighborhoods_with_data : ℕ
deriving DecidableEq, Repr

/-- main.py line 221: the green scores kept for the statistics, from the
loaded entities' green_score fields (none models a JSON null):
[s for s in scores if s is not None and s > 0]. -/
def positiveScores (gs : List (Option ℚ)) : List ℚ :=
gs.filterMap fun o =>
  match o with
  | some q => if 0 < q then some q else none
  | none => none

/-- main.py lines 214-236, get_stats_summary, pure core over the list of
green_score fields: none models the success:false envelope, Python max and
min on a nonempty list are left folds. -/
def get_stats_summary (gs : List (Option ℚ)) : Option StatsData :=
match positiveScores gs with
| [] => none
| p :: ps =>
  some { total_neighborhoods := gs.length,
         average_green_score := (p :: ps).sum / (p :: ps).length,
         highest_green_score := ps.foldl max p,
         lowest_green_score := ps.foldl min p,
         neighborhoods_with_data := (p :: ps).length }

section FoldExtrema

variable {α : Type} [LinearOrder α]

lemma foldl_max_mem (l : List α) (a : α) : l.foldl max a ∈ a :: l := by
  induction l generalizing a with
  | nil => simp
  | cons b t ih =>
    rw [List.foldl_cons]
    rcases List.mem_cons.mp (ih (max a b)) with h1 | h1
    · rw [h1]
      rcases max_choice a b with h2 | h2 <;> rw [h2] <;> simp
    · exact List.mem_cons_of_mem _ (List.mem_cons_of_mem _ h1)

lemma le_foldl_max (l : List α) (a : α) : ∀ x ∈ a :: l, x ≤ l.foldl max a := by
  induction l generalizing a with
  | nil => intro x hx; simp at hx; simp [hx]
  | cons b t ih =>
    intro x hx
    rcases List.mem_cons.mp hx with h1 | h1
    · subst h1
      exact le_trans (le_max_left x b)
        (ih (max x b) _ (List.mem_cons_self _ _))
    · rcases List.mem_cons.mp h1 with h2 | h2
      · subst h2
        exact le_trans (le_max_right a x)
          (ih (max a x) _ (List.mem_cons_self _ _))
      · exact ih (max a b) x (List.mem_cons_of_mem _ h2)

lemma foldl_min_mem (l : List α) (a : α) : l.foldl min a ∈ a :: l := by
  induction l generalizing a with
  | nil => simp
  | cons b t ih =>
    rw [List.foldl_cons]
    rcases List.mem_cons.mp (ih (min a b)) with h1 | h1
    · rw [h1]
      rcases min_choice a b with h2 | h2 <;> rw [h2] <;> simp
    · exact List.mem_cons_of_mem _ (List.mem_cons_of_mem _ h1)

lemma foldl_min_le (l : List α) (a : α) : ∀ x ∈ a :: l, l.foldl min a ≤ x := by
  induction l generalizing a with
  | nil => intro x hx; simp at hx; simp [hx]
  | cons b t ih =>
    intro x hx
    rcases List.mem_cons.mp hx with h1 | h1
    · subst h1
      exact le_trans (ih (min x b) _ (List.mem_cons_self _ _))
        (min_le_left x b)
    · rcases List.mem_cons.mp h1 with h2 | h2
      · subst h2
        exact le_trans (ih (min a x) _ (List.mem_cons_self _ _))
          (min_le_right a x)
      · exact ih (min a b) x (List.mem_cons_of_mem _ h2)

end FoldExtrema

/-- C10: the statistics of get_stats_summary are computed only over the
non-null strictly positive green scores: null and exactly-0 scores are
excluded from the mean, highest and lowest; when no positive score exists the
endpoint returns the non-success result; on success total_neighborhoods still
counts every loaded entity, neighborhoods_with_data counts only the included
ones, the mean is over the included scores, and highest and lowest are the
maximum and minimum of the included scores. -/
theorem stats_summary_positive_filter (gs : List (Option ℚ)) :
    positiveScores (none :: gs) = positiveScores gs ∧
    positiveScores (some 0 :: gs) = positiveScores gs ∧
    ((∀ o ∈ gs, ∀ q : ℚ, o = some q → q ≤ 0) → get_stats_summary gs = none) ∧
    ∀ s, get_stats_summary gs = some s →
      s.total_neighborhoods = gs.length ∧
      s.neighborhoods_with_data = (positiveScores gs).length ∧
      s.average_green_score = (positiveScores gs).sum / (positiveScores gs).length ∧
      s.highest_green_score ∈ positiveScores gs ∧
      (∀ q ∈ positiveScores gs, q ≤ s.highest_green_score) ∧
      s.lowest_green_score ∈ positiveScores gs ∧
      (∀ q ∈ positiveScores gs, s.lowest_green_score ≤ q) := by
  refine ⟨by simp [positiveScores], by simp [positiveScores], fun hnp => ?_, ?_⟩
  · have hemp : positiveScores gs = [] := by
      rw [positiveScores, List.filterMap_eq_nil_iff]
      intro o ho
      cases o with
      | none => rfl
      | some q => simp [not_lt.mpr (hnp (some q) ho q rfl)]
    rw [get_stats_summary, hemp]
  · intro s hs
    rw [get_stats_summary] at hs
    cases hp : positiveScores gs with
    | nil => rw [hp] at hs; exact absurd hs (by simp)
    | cons p ps =>
      rw [hp] at hs
      have hs2 := Option.some.inj hs
      subst hs2
      refine ⟨rfl, by simp [hp], by simp [hp], ?_, ?_, ?_, ?_⟩ <;>
        simp only [hp]
      · exact foldl_max_mem ps p
      · exact le_foldl_max ps p
      · exact foldl_min_mem ps p
      · exact foldl_min_le ps p

/-- Witness for C10: a dataset holding only a null and a zero score yields
the non-success result. -/
theorem stats_summary_positive_filter_witness :
    get_stats_summary [none, some 0] = none :=
  (stats_summary_positive_filter [none, some 0]).2.2.1 (by
    intro o ho q hq
    rcases List.mem_cons.mp ho with h | h
    · rw [h] at hq; cases hq
    · rcases List.mem_cons.mp h with h2 | h2
      · rw [h2] at hq
        have : (0 : ℚ) = q := Option.some.inj hq
        exact this ▸ le_refl 0
      · simp at h2)

/-! ## Source resolver, neighbourhood_scraper.py -/

/-- Python str.title for ASCII text: an alphabetic character is uppercased
when the previous character is not alphabetic and lowercased otherwise; the
flag records whether the previous character was alphabetic. -/
def pyTitleAux : Bool → List Char → List Char
| _, [] => []
| prevCased, c :: t =>
  if c.isAlpha then
    (if prevCased then c.toLower else c.toUpper) :: pyTitleAux true t
  else c :: pyTitleAux false t

/-- Python str.title on a string. -/
def pyTitle (s : String) : String := String.mk (pyTitleAux false s.data)

/-- neighbourhood_scraper.py lines 158-160:
sorted(list(set(area.strip().title() for area in areas if
isinstance(area, str) and area.strip()))).  Python's sorted(set(..)) is the
unique ascending enumeration of the distinct elements, which Finset.sort
computes. -/
def normalize_areas (areas : List String) : List String :=
Finset.sort (· ≤ ·)
  (areas.filterMap fun a =>
    if pyStrip a = "" then none else some (pyTitle (pyStrip a))).toFinset

/-- neighbourhood_scraper.py lines 138-164, scrape: the three sources are
modelled by their returned raw name lists (a source that fails or finds
nothing returns [], exactly as the code catches its errors and returns []).
The first non-empty result is normalized and enumerated from id 1. -/
def scrape (s1 s2 s3 : List String) : List (ℕ × String) :=
let areas := if s1 = [] then (if s2 = [] then s3 else s2) else s1
if areas = [] then []
else
  let u := normalize_areas areas
  (List.range' 1 u.length).zip u

lemma scrape_names (s1 s2 s3 : List String) :
    (scrape s1 s2 s3).map Prod.snd =
      if (if s1 = [] then (if s2 = [] then s3 else s2) else s1) = [] then []
      else normalize_areas (if s1 = [] then (if s2 = [] then s3 else s2) else s1) := by
  rw [scrape]
  by_cases h : (if s1 = [] then (if s2 = [] then s3 else s2) else s1) = []
  · simp [h]
  · simp only [h, if_neg, if_false]
    exact List.map_snd_zip _ _ (by simp)

/-- C5: the scraper output is built from the first source of the fixed chain
that returns a non-empty list (later sources do not influence the result),
its names are strictly sorted (hence deduplicated) title-cased stripped
names of the winning source, its ids are 1-based in sort order, and when
every source returns nothing the output is empty. -/
theorem scrape_first_source_normalized (s1 s2 s3 : List String) :
    (s1 ≠ [] → scrape s1 s2 s3 = scrape s1 [] []) ∧
    (s1 = [] → s2 ≠ [] → scrape s1 s2 s3 = scrape [] s2 []) ∧
    scrape [] [] [] = [] ∧
    List.Sorted (· < ·) ((scrape s1 s2 s3).map Prod.snd) ∧
    (scrape s1 s2 s3).map Prod.fst = List.range' 1 (scrape s1 s2 s3).length ∧
    ∀ n : String, n ∈ (scrape s1 s2 s3).map Prod.snd ↔
      ∃ raw ∈ (if s1 = [] then (if s2 = [] then s3 else s2) else s1),
        pyStrip raw ≠ "" ∧ pyTitle (pyStrip raw) = n := by
  refine ⟨fun h1 => by simp [scrape, h1], fun h1 h2 => by simp [scrape, h1, h2],
    by simp [scrape], ?_, ?_, ?_⟩
  · rw [scrape_names]
    by_cases h : (if s1 = [] then (if s2 = [] then s3 else s2) else s1) = []
    · simp [h]
    · simp only [h, if_neg, if_false]
      exact Finset.sort_sorted_lt _
  · rw [scrape]
    by_cases h : (if s1 = [] then (if s2 = [] then s3 else s2) else s1) = []
    · simp [h]
    · simp only [h, if_neg, if_false]
      rw [List.map_fst_zip _ _ (by simp), List.length_zip]
      simp
  · intro n
    rw [scrape_names]
    by_cases h : (if s1 = [] then (if s2 = [] then s3 else s2) else s1) = []
    · simp only [h, if_pos]
      constructor
      · intro hn; simp at hn
      · rintro ⟨raw, hraw, _⟩
        simp at hraw
    · simp only [h, if_neg, if_false, normalize_areas]
      rw [Finset.mem_sort, List.mem_toFinset, List.mem_filterMap]
      constructor
      · rintro ⟨raw, hraw, hf⟩
        by_cases ht : pyStrip raw = ""
        · simp [ht] at hf
        · simp only [ht, if_neg, if_false] at hf
          exact ⟨raw, hraw, ht, Option.some.inj hf⟩
      · rintro ⟨raw, hraw, ht, hf⟩
        exact ⟨raw, hraw, by simp [ht, hf]⟩

/-- Witness for C5: a concrete first source with duplicates, stray case and
whitespace wins over a non-empty second source. -/
theorem scrape_first_source_normalized_witness :
    scrape ["maple-ash ", "KIWANIS park", "maple-ash"] ["Back Bay"] [] =
      scrape ["maple-ash ", "KIWANIS park", "maple-ash"] [] [] :=
  (scrape_first_source_normalized ["maple-ash ", "KIWANIS park", "maple-ash"]
    ["Back Bay"] []).1 (by simp)

/-! ## Conversational context tracker, backend/chatbot/chatbot.py -/

/-- Boolean prefix test on character lists. -/
def isPrefixCharB : List Char → List Char → Bool
| [], _ => true
| _ :: _, [] => false
| a :: as, b :: bs => a == b && isPrefixCharB as bs

/-- Python substring containment (pat in s) on character lists. -/
def containsSub (pat : List Char) : List Char → Bool
| [] => isPrefixCharB pat []
| c :: t => isPrefixCharB pat (c :: t) || containsSub pat t

/-- Python str.replace(old, new): replace every non-overlapping occurrence,
scanning left to right; the replacement text is not rescanned.  The fuel
starts at the length of the string and dominates it throughout, so the
fuel-0 case is never reached. -/
def replaceAllAux (pat rep : List Char) : ℕ → List Char → List Char
| 0, s => s
| _ + 1, [] => []
| f + 1, c :: t =>
  if pat ≠ [] ∧ isPrefixCharB pat (c :: t) then
    rep ++ replaceAllAux pat rep f (List.drop (pat.length - 1) t)
  else c :: replaceAllAux pat rep f t

/-- Python str.replace(old, new) on character lists. -/
def replaceAll (pat rep s : List Char) : List Char :=
replaceAllAux pat rep s.length s

/-- Python str.replace(old, new, 1): replace only the first occurrence. -/
def replaceFirst (pat rep : List Char) : List Char → List Char
| [] => []
| c :: t =>
  if pat ≠ [] ∧ isPrefixCharB pat (c :: t) then
    rep ++ List.drop (pat.length - 1) t
  else c :: replaceFirst pat rep t

/-- Python str.lower on a character list (ASCII). -/
def lowerL (s : List Char) : List Char := s.map Char.toLower

/-- chatbot.py line 291: the pronoun patterns looked for in the lowercased
message. -/
def pronoun_patterns : List String :=
["it", "its", "that neighborhood", "there", "this place", "that place"]

/-- chatbot.py lines 285-312, _resolve_pronouns_and_references: when a
pronoun pattern occurs in the lowercased message and a current subject
neighborhood exists, the fixed replacement chain is applied (including the
two first-occurrence replacements for sentence-initial It / Its); otherwise
the message passes through unchanged. -/
def resolve_pronouns_and_references (current : Option String)
    (message : String) : String :=
match current with
| none => message
| some cn =>
  let ml := lowerL message.data
  if pronoun_patterns.any fun p => containsSub p.data ml then
    let r1 := replaceAll " it ".data (" " ++ cn ++ " ").data message.data
    let r2 := replaceAll " its ".data (" " ++ cn ++ "\x27s ").data r1
    let r3 := replaceAll "that neighborhood".data cn.data r2
    let r4 := replaceAll " there".data (" in " ++ cn).data r3
    let r5 := replaceAll "this place".data cn.data r4
    let r6 := replaceAll "that place".data cn.data r5
    let r7 := if isPrefixCharB "it ".data ml then
        replaceFirst "It ".data (cn ++ " ").data r6
      else r6
    let r8 := if isPrefixCharB "its ".data ml then
        replaceFirst "Its ".data (cn ++ "\x27s ").data r7
      else r7
    String.mk r8
  else message

/-- One recorded turn of conversation_history (chatbot.py lines 408-414);
the timestamp and token bookkeeping are omitted, they carry no control
flow. -/
structure Turn where
  user : String
  resolved_user : String
  response : Option String
deriving DecidableEq, Repr

/-- The conversation_context fields that drive control flow (chatbot.py
lines 17-22); user_preferences, session_facts and co2_stats are pure
bookkeeping for the prompt text and are omitted. -/
structure ChatContext where
  current_neighborhood : Option String
  last_mentioned_neighborhoods : List String
  last_discussed_topics : List String
deriving DecidableEq, Repr

/-- The chatbot state mutated by one turn. -/
structure ChatState where
  conversation_history : List Turn
  context : ChatContext
deriving DecidableEq, Repr

/-- chatbot.py lines 246-255: names of the known neighborhoods whose
lowercased name occurs in the lowercased response. -/
def mentionedNeighborhoods (names : List String) (respL : List Char) :
    List String :=
names.filter fun n => containsSub (lowerL n.data) respL

/-- chatbot.py lines 257-270: the six keyword-driven topic tags, in order. -/
def topicsOf (userL respL : List Char) : List String :=
(if containsSub "green score".data userL || containsSub "green score".data respL
 then ["green_score"] else []) ++
(if containsSub "air quality".data userL || containsSub "air quality".data respL
 then ["air_quality"] else []) ++
(if containsSub "water quality".data userL || containsSub "water quality".data respL
 then ["water_quality"] else []) ++
(if containsSub "walkability".data userL || containsSub "walkability".data respL
 then ["walkability"] else []) ++
(if containsSub "lewc".data userL || containsSub "environmental risk".data userL
 then ["lewc_score"] else []) ++
(if containsSub "co2".data userL || containsSub "carbon".data userL ||
    containsSub "emissions".data userL
 then ["co2_savings"] else [])

/-- chatbot.py lines 240-273, _update_conversation_context: set the current
subject and the capped recently-mentioned list when the response mentions
known neighborhoods, and overwrite the topic list when any topic keyword
fires. -/
def update_conversation_context (names : List String)
    (userMsg resp : String) (ctx : ChatContext) : ChatContext :=
let userL := lowerL userMsg.data
let respL := lowerL resp.data
let mentioned := mentionedNeighborhoods names respL
let ctx1 := if mentioned ≠ [] then
    { ctx with
      current_neighborhood := mentioned.head?,
      last_mentioned_neighborhoods := mentioned.take 3 }
  else ctx
let topics := topicsOf userL respL
if topics ≠ [] then { ctx1 with last_discussed_topics := topics } else ctx1

/-- chatbot.py line 457: self.conversation_history[-1]["response"] =
response. -/
def setLastResponse : List Turn → String → List Turn
| [], _ => []
| [t], r => [{ t with response := some r }]
| t :: ts, r => t :: setLastResponse ts r

/-- chatbot.py line 465: the fixed apologetic reply of the top-level
exception handler of get_response. -/
def apology_message : String :=
"I\x27m sorry, I encountered an error processing your request. Please try again."

/-- chatbot.py line 418: the fixed reply to a whitespace-only message. -/
def empty_message_reply : String :=
"I\x27m here to help! Ask me about neighborhood data, green scores, or sustainability metrics."

/-- chatbot.py lines 398-465, get_response, for the context=None path: the
turn is appended to the history with a null response, the whitespace-only
early return fires next, then the response is generated from the resolved
message.  gen models everything that can raise between the history append
and the return (context building, the Tandemn call, the fallback responder,
the context update): .ok r is a produced response, .error is a raised
exception reaching the top-level except, which answers with the fixed
apology and leaves the turn's response null. -/
def get_response (gen : String → Except Unit String) (names : List String)
    (st : ChatState) (message : String) : String × ChatState :=
let resolved :=
  resolve_pronouns_and_references st.context.current_neighborhood message
let st1 : ChatState :=
  { st with conversation_history :=
      st.conversation_history ++ [⟨message, resolved, none⟩] }
if pyStrip message = "" then (empty_message_reply, st1)
else
  match gen resolved with
  | .ok resp =>
    let ctx2 := update_conversation_context names resolved resp st1.context
    let hist2 := setLastResponse st1.conversation_history resp
    (resp, { conversation_history := hist2, context := ctx2 })
  | .error _ => (apology_message, st1)

/-- C9: with current subject Maple-Ash, the input -how is its water quality-
resolves to -how is Maple-Ash's water quality-; with no current subject any
input passes through unchanged. -/
theorem resolve_pronouns_behavior :
    resolve_pronouns_and_references (some "Maple-Ash")
        "how is its water quality" =
      "how is Maple-Ash\x27s water quality" ∧
    ∀ message : String,
      resolve_pronouns_and_references none message = message :=
  ⟨by decide, fun _ => rfl⟩

/-- C8: when the generation step raises, get_response returns the fixed
apologetic message (never a raw error), and the turn is still recorded at
the end of the conversation history with a null response field. -/
theorem get_response_exception_policy (gen : String → Except Unit String)
    (names : List String) (st : ChatState) (message : String)
    (hne : pyStrip message ≠ "")
    (herr : gen (resolve_pronouns_and_references
      st.context.current_neighborhood message) = .error ()) :
    (get_response gen names st message).1 = apology_message ∧
    (get_response gen names st message).2.conversation_history =
      st.conversation_history ++
        [⟨message,
          resolve_pronouns_and_references st.context.current_neighborhood message,
          none⟩] := by
  simp [get_response, hne, herr]

/-- Witness for C8: a failing generator on the empty initial state. -/
theorem get_response_exception_policy_witness :
    (get_response (fun _ => .error ()) [] ⟨[], ⟨none, [], []⟩⟩ "hi").1 =
      apology_message ∧
    (get_response (fun _ => .error ()) [] ⟨[], ⟨none, [], []⟩⟩ "hi").2.conversation_history =
      [] ++ [⟨"hi", resolve_pronouns_and_references none "hi", none⟩] :=
  get_response_exception_policy (fun _ => .error ()) [] ⟨[], ⟨none, [], []⟩⟩
    "hi" (by decide) rfl

/-! ## Geocoding resolver, Coordinate_finder.py -/

/-- The two geocoding providers of CoordinateFinder. -/
inductive Provider where
| google
| nominatim
deriving DecidableEq, Repr

/-- A Google geometry location. -/
structure GLoc where
  lat : ℚ
  lng : ℚ
deriving DecidableEq, Repr

/-- A Google geocode response body: status string and results array. -/
structure GResp where
  status : String
  results : List GLoc
deriving DecidableEq, Repr

/-- A Nominatim result entry; a missing lat or lon key is modelled by the
value 0, exactly what float(result.get(..., 0)) produces. -/
structure NLoc where
  lat : ℚ
  lon : ℚ
deriving DecidableEq, Repr

/-- Coordinate_finder.py lines 89-92 and 141-144: a fetched Google payload
is accepted when it is truthy (none models the empty dict returned by
_fetch_google_json on errors), its status is OK and its results are
non-empty; the first result's location is taken.  No zero-coordinate check
is performed on this path. -/
def googleAccepts : Option GResp → Option GLoc
| some r => if r.status = "OK" ∧ r.results ≠ [] then r.results.head? else none
| none => none

/-- Coordinate_finder.py lines 76-115, _geocode_city: with use_google set,
one Google verification call; on anything but an accepted response the
use_google flag is cleared for the rest of the run and the Nominatim
verification call is made.  Returns the new use_google flag, whether the
city was found, and the providers queried. -/
def geocode_city (useGoogle : Bool) (gResp : Option GResp)
    (nResp : List NLoc) : Bool × Bool × List Provider :=
if useGoogle then
  match googleAccepts gResp with
  | some _ => (true, true, [Provider.google])
  | none =>
    if nResp ≠ [] then (false, true, [Provider.google, Provider.nominatim])
    else (false, false, [Provider.google, Provider.nominatim])
else
  if nResp ≠ [] then (false, true, [Provider.nominatim])
  else (false, false, [Provider.nominatim])

/-- Coordinate_finder.py lines 133-145: the Google loop over the address
formats; each template issues one request, the first accepted response
breaks the loop.  Returns the coordinates found and the issued requests. -/
def googleLoop : List (Option GResp) → Option (ℚ × ℚ) × List Provider
| [] => (none, [])
| r :: rs =>
  match googleAccepts r with
  | some loc => (some (loc.lat, loc.lng), [Provider.google])
  | none =>
    let rest := googleLoop rs
    (rest.1, Provider.google :: rest.2)

/-- Coordinate_finder.py lines 166-172: a Nominatim payload yields
coordinates only when it is non-empty and the first entry has lat != 0 and
lon != 0; otherwise the template is treated as not found. -/
def nomAccepts : List NLoc → Option (ℚ × ℚ)
| [] => none
| l :: _ => if l.lat ≠ 0 ∧ l.lon ≠ 0 then some (l.lat, l.lon) else none

/-- Coordinate_finder.py lines 156-172: the Nominatim loop over the query
formats. -/
def nomLoop : List (List NLoc) → Option (ℚ × ℚ) × List Provider
| [] => (none, [])
| r :: rs =>
  match nomAccepts r with
  | some c => (some c, [Provider.nominatim])
  | none =>
    let rest := nomLoop rs
    (rest.1, Provider.nominatim :: rest.2)

/-- One output record of the coordinate stage (Coordinate_finder.py lines
174-179). -/
structure CoordRecord where
  id : ℕ
  neighbourhood_name : String
  latitude : Option ℚ
  longitude : Option ℚ
deriving DecidableEq, Repr

/-- Coordinate_finder.py lines 117-179, _get_neighbourhood_coords: try the
Google templates only when use_google is set; if no coordinates were found,
try the Nominatim templates.  The per-template provider responses are the
oracles; the issued requests are returned alongside the record. -/
def get_neighbourhood_coords (useGoogle : Bool) (idv : ℕ) (name : String)
    (gResps : List (Option GResp)) (nResps : List (List NLoc)) :
    CoordRecord × List Provider :=
let g := if useGoogle then googleLoop gResps else (none, [])
match g.1 with
| some c =>
  ({ id := idv, neighbourhood_name := name,
     latitude := some c.1, longitude := some c.2 }, g.2)
| none =>
  let n := nomLoop nResps
  ({ id := idv, neighbourhood_name := name,
     latitude := n.1.map Prod.fst, longitude := n.1.map Prod.snd },
   g.2 ++ n.2)

/-- Coordinate_finder.py lines 181-208, find_coordinates_for_city: verify
the city first (this is where the use_google flag can be cleared), stop when
the city is not found, then geocode every neighbourhood with the resulting
flag.  Each neighbourhood carries its id, name and per-template oracle
responses. -/
def find_coordinates_for_city (useGoogle0 : Bool) (cityG : Option GResp)
    (cityN : List NLoc)
    (hoods : List (ℕ × String × List (Option GResp) × List (List NLoc))) :
    List (CoordRecord × List Provider) :=
let v := geocode_city useGoogle0 cityG cityN
if v.2.1 = false then []
else hoods.map fun h =>
  get_neighbourhood_coords v.1 h.1 h.2.1 h.2.2.1 h.2.2.2

lemma nomLoop_trace_nominatim :
    ∀ rs, ∀ p ∈ (nomLoop rs).2, p = Provider.nominatim := by
  intro rs
  induction rs with
  | nil => intro p hp; simp [nomLoop] at hp
  | cons r rs ih =>
    intro p hp
    rw [nomLoop] at hp
    cases hacc : nomAccepts r with
    | some c => rw [hacc] at hp; simp at hp; exact hp
    | none =>
      rw [hacc] at hp
      simp only [List.mem_cons] at hp
      rcases hp with hp | hp
      · exact hp
      · exact ih p hp

lemma nomAccepts_ne_zero (r : List NLoc) (c : ℚ × ℚ)
    (h : nomAccepts r = some c) : c.1 ≠ 0 ∧ c.2 ≠ 0 := by
  cases r with
  | nil => cases h
  | cons l rest =>
    rw [nomAccepts] at h
    by_cases hc : l.lat ≠ 0 ∧ l.lon ≠ 0
    · rw [if_pos hc] at h
      have hcc := Option.some.inj h
      rw [← hcc]
      exact hc
    · rw [if_neg hc] at h
      cases h

/-- C2 counterexample: on the Google path a response with status OK whose
first result is exactly (0.0, 0.0) is accepted, so the output record carries
latitude 0 and longitude 0 taken from a provider response. -/
theorem google_zero_coords_accepted :
    (get_neighbourhood_coords true 1 "Riverside"
        [some ⟨"OK", [⟨0, 0⟩]⟩] []).1.latitude = some 0 ∧
    (get_neighbourhood_coords true 1 "Riverside"
        [some ⟨"OK", [⟨0, 0⟩]⟩] []).1.longitude = some 0 := by
  decide

/-- C2 (amended): the zero-coordinate rejection holds on the Nominatim path
only: a Nominatim template response whose first entry has either coordinate
exactly 0 (in particular (0.0, 0.0)) is treated as not found and the loop
moves on to the next template, and coordinates accepted from the Nominatim
loop are never zero; the Google path performs no such check and accepts an
OK response carrying (0.0, 0.0). -/
theorem nominatim_zero_coords_rejected (rs : List (List NLoc)) :
    (∀ c, (nomLoop rs).1 = some c → c.1 ≠ 0 ∧ c.2 ≠ 0) ∧
    (∀ l rest, l.lat = 0 ∨ l.lon = 0 → nomAccepts (l :: rest) = none) ∧
    ∀ r, nomAccepts r = none →
      nomLoop (r :: rs) = ((nomLoop rs).1, Provider.nominatim :: (nomLoop rs).2) := by
  refine ⟨?_, ?_, ?_⟩
  · intro c hc
    induction rs with
    | nil => simp [nomLoop] at hc
    | cons r rs ih =>
      rw [nomLoop] at hc
      cases hacc : nomAccepts r with
      | some c0 =>
        rw [hacc] at hc
        simp only at hc
        have hcc := Option.some.inj hc
        rw [← hcc]
        exact nomAccepts_ne_zero r c0 hacc
      | none =>
        rw [hacc] at hc
        exact ih hc
  · intro l rest hz
    rw [nomAccepts]
    rw [if_neg]
    intro hcon
    rcases hz with hz | hz
    · exact hcon.1 hz
    · exact hcon.2 hz
  · intro r hr
    rw [nomLoop, hr]

/-- Witness for C2 (amended): a zero-latitude first template is skipped and
the loop continues to the second template. -/
theorem nominatim_zero_coords_rejected_witness :
    nomLoop ([⟨0, 5⟩] :: [[⟨3, 4⟩]]) =
      ((nomLoop [[⟨3, 4⟩]]).1,
        Provider.nominatim :: (nomLoop [[⟨3, 4⟩]]).2) :=
  (nominatim_zero_coords_rejected [[⟨3, 4⟩]]).2.2 [⟨0, 5⟩] (by decide)

/-- C3: when the Google city-verification call is not accepted (error
status, empty payload or no results), the use_google flag is cleared, and
every per-neighbourhood lookup of the rest of the run issues no request to
Google at all. -/
theorem sticky_google_demotion (cityG : Option GResp) (cityN : List NLoc)
    (hoods : List (ℕ × String × List (Option GResp) × List (List NLoc)))
    (hfail : googleAccepts cityG = none) :
    (geocode_city true cityG cityN).1 = false ∧
    ∀ rec ∈ find_coordinates_for_city true cityG cityN hoods,
      Provider.google ∉ rec.2 := by
  have hflag : (geocode_city true cityG cityN).1 = false := by
    rw [geocode_city]
    simp only [if_pos, hfail]
    by_cases hn : cityN ≠ [] <;> simp [hn]
  refine ⟨hflag, ?_⟩
  intro rec hrec
  rw [find_coordinates_for_city] at hrec
  by_cases hfound : (geocode_city true cityG cityN).2.1 = false
  · rw [if_pos hfound] at hrec
    simp at hrec
  · rw [if_neg hfound] at hrec
    rw [List.mem_map] at hrec
    obtain ⟨h, _, hh⟩ := hrec
    rw [← hh, get_neighbourhood_coords, hflag]
    simp only
    intro hmem
    have h2 : Provider.google ∈ (nomLoop h.2.2.2).2 := by simpa using hmem
    cases nomLoop_trace_nominatim _ _ h2

/-- Witness for C3: the Google verification answers REQUEST_DENIED; the
neighbourhood lookup afterwards only queries Nominatim even though its
Google oracle would answer OK. -/
theorem sticky_google_demotion_witness :
    (geocode_city true (some ⟨"REQUEST_DENIED", []⟩) [⟨1, 2⟩]).1 = false ∧
    ∀ rec ∈ find_coordinates_for_city true (some ⟨"REQUEST_DENIED", []⟩)
        [⟨1, 2⟩] [(1, "Riverside", [some ⟨"OK", [⟨3, 4⟩]⟩], [[⟨5, 6⟩]])],
      Provider.google ∉ rec.2 :=
  sticky_google_demotion (some ⟨"REQUEST_DENIED", []⟩) [⟨1, 2⟩]
    [(1, "Riverside", [some ⟨"OK", [⟨3, 4⟩]⟩], [[⟨5, 6⟩]])] (by decide)

end UrbanVitals
